import Mathlib

/-!
Verification development for the axvector dynamic vector library
(repository DerEasy/AXvector).  The repository ships only the interface
header `axvector.h` (declarations and documentation comments); the
implementation translation unit is not present, so every operation below
is modelled from the specification and the header's documentation.

Modelling conventions:
* items are opaque machine words (`void *`); a `NULL`/zero item is `0`;
* fallible allocation is made explicit: every operation that may
  reallocate takes an `oom : Bool` flag meaning "the reallocation, if one
  is attempted, fails";
* destructor side effects are observable: operations return the list of
  items the destructor is invoked on, in invocation order (empty when no
  destructor is installed);
* the absence indicator (`NULL` return in C) is `Option.none`.
-/

/-- Items stored by the vector are opaque pointers; we model them as
integers, with `0` standing for the null pointer used to zero-fill gaps. -/
abbrev Item := Int

/-- Modelled from the spec: the Vector data model of §3 (the struct lives in
the missing implementation file `axvector.c`): a length/capacity-managed
buffer of opaque item references plus comparator, optional destructor,
opaque context and a reference counter.  `items` holds the live items, so
`length = items.length`; the destructor capability is abstracted to the
flag `hasDestructor` because invocations are observed, not executed. -/
structure axvector where
  items : List Item
  cap : Nat
  comparator : Item → Item → Int
  hasDestructor : Bool
  context : Item
  refcount : Nat

/-- Modelled from the spec: the Index Resolver of §4.3 (implementation not
in `src/`): a negative index gets the length added (so −1 is the last
item); a resolved index outside `[0, length)` is out of range (`none`). -/
def resolveIndex (index : Int) (len : Nat) : Option Nat :=
  let j := if index < 0 then index + len else index
  if 0 ≤ j ∧ j < len then some j.toNat else none

/-- Modelled from the spec: `axv_at` (implementation not in `src/`):
resolve the signed index and return the item there, or the absence
indicator when the index is out of range. -/
def axv_at (v : axvector) (index : Int) : Option Item :=
  match resolveIndex index v.items.length with
  | none => none
  | some j => v.items[j]?

/-- Modelled from the spec: `axv_set` (implementation not in `src/`):
replace the item at the resolved index; report true (out of range) and
leave the vector unmodified when the index does not resolve. -/
def axv_set (v : axvector) (index : Int) (val : Item) : axvector × Bool :=
  match resolveIndex index v.items.length with
  | none => (v, true)
  | some j => ({ v with items := v.items.set j val }, false)

/-- Modelled from the spec: `axv_swap` (implementation not in `src/`):
swap the items at two resolved indices; report true (out of range) and
leave the vector unmodified when either index does not resolve. -/
def axv_swap (v : axvector) (index1 index2 : Int) : axvector × Bool :=
  match resolveIndex index1 v.items.length, resolveIndex index2 v.items.length with
  | some a, some b =>
      ({ v with items := (v.items.set a (v.items.getD b 0)).set b (v.items.getD a 0) }, false)
  | _, _ => (v, true)

/-- Modelled from the spec: `axv_pop` (implementation not in `src/`):
remove and return the last item; on an empty vector return the absence
indicator and leave the vector unchanged. -/
def axv_pop (v : axvector) : axvector × Option Item :=
  match v.items.getLast? with
  | none => (v, none)
  | some x => ({ v with items := v.items.dropLast }, some x)

/-- Modelled from the spec: `axv_top` (implementation not in `src/`):
return the last item without removing it, or the absence indicator on an
empty vector. -/
def axv_top (v : axvector) : Option Item :=
  v.items.getLast?

/-- Modelled from the spec: `axv_max` (implementation not in `src/`):
forward linear scan for the greatest item under the comparator; absence
indicator on an empty vector. -/
def axv_max (v : axvector) : Option Item :=
  match v.items with
  | [] => none
  | x :: xs => some (xs.foldl (fun best y => if 0 < v.comparator y best then y else best) x)

/-- Modelled from the spec: `axv_min` (implementation not in `src/`):
forward linear scan for the least item under the comparator; absence
indicator on an empty vector. -/
def axv_min (v : axvector) : Option Item :=
  match v.items with
  | [] => none
  | x :: xs => some (xs.foldl (fun best y => if v.comparator y best < 0 then y else best) x)

/-- Modelled from the spec: the default address comparator of §4.6
(implementation not in `src/`), a three-way ordering on the opaque words. -/
def defaultComparator : Item → Item → Int :=
  fun a b => if a < b then -1 else if b < a then 1 else 0

/-- Sample vector builder used by concrete witnesses: a fresh vector as
created by `axv_sizedNew` followed by pushes, with a destructor installed. -/
def mkVec (l : List Item) : axvector :=
  { items := l
    cap := max 1 l.length
    comparator := defaultComparator
    hasDestructor := true
    context := 0
    refcount := 1 }

/-- Result of a mutating operation that may invoke the destructor and may
fail on reallocation: the vector afterwards, the items the destructor was
invoked on (in invocation order; empty when no destructor is installed),
and the boolean error report (`true` iff out of memory). -/
structure MutResult where
  vec : axvector
  destroyed : List Item
  err : Bool

/-- Modelled from the spec: `axv_rotate` (implementation not in `src/`):
right-rotation by `k mod length` places, a negative `k` rotating left;
in place, the other fields untouched.  `List.rotate` rotates left, so a
right rotation by `r` is a left rotation by `length − r`. -/
def axv_rotate (v : axvector) (k : Int) : axvector :=
  if v.items.length = 0 then v
  else
    let r := (k % (v.items.length : Int)).toNat
    { v with items := v.items.rotate (v.items.length - r) }

/-- Modelled from the spec: `axv_shift` (implementation not in `src/`).
For a resolved anchor `a` and `n > 0`: open an `n`-slot zero-filled gap at
`a`, shifting the items at or after `a` rightward by `n` and growing
storage as needed; the only case that can report out of memory, and then
the vector is unmodified.  For `n ≤ 0`: destroy the `min(|n|, length − a)`
items starting at `a` (destructor invoked on each in forward order when
installed) and shift the subsequent items left to close the gap.  An
anchor that does not resolve leaves the vector untouched. -/
def axv_shift (v : axvector) (index : Int) (n : Int) (oom : Bool) : MutResult :=
  match resolveIndex index v.items.length with
  | none => ⟨v, [], false⟩
  | some a =>
    if 0 < n then
      if oom = true ∧ v.cap < v.items.length + n.toNat then ⟨v, [], true⟩
      else
        ⟨{ v with
            items := v.items.take a ++ List.replicate n.toNat 0 ++ v.items.drop a
            cap := max v.cap (v.items.length + n.toNat) }, [], false⟩
    else
      let m := min (-n).toNat (v.items.length - a)
      let removed := (v.items.drop a).take m
      ⟨{ v with items := v.items.take a ++ v.items.drop (a + m) },
        if v.hasDestructor then removed else [], false⟩

/-- Modelled from the spec: `axv_resize` (implementation not in `src/`):
set the capacity to `size`; when `size` is below the current length the
items at indices `[size, length)` are truncated and the destructor (if
installed) is invoked on each of them before the reallocation is
attempted, unconditionally — even when the reallocation then fails and
the operation reports out of memory (capacity is only updated on
success, respecting the `capacity ≥ 1` invariant). -/
def axv_resize (v : axvector) (size : Nat) (oom : Bool) : MutResult :=
  let newItems := v.items.take size
  let destroyed := if v.hasDestructor then v.items.drop size else []
  if oom then ⟨{ v with items := newItems }, destroyed, true⟩
  else ⟨{ v with items := newItems, cap := max 1 size }, destroyed, false⟩

/-- Modelled from the spec: `axv_destroyItem` (implementation not in
`src/`): when a destructor is installed it is invoked on the argument
(exactly once), otherwise nothing happens; the vector itself is returned
untouched either way. -/
def axv_destroyItem (v : axvector) (val : Item) : axvector × List Item :=
  (v, if v.hasDestructor then [val] else [])

/-- Modelled from the spec: `axv_concat` (implementation not in `src/`):
copy all items of the second vector to the tail of the first, capturing
the source length before mutation so that self-concatenation duplicates
the original sequence exactly once; the second vector is never written.
Aliasing (`v1` and `v2` the same object) is made explicit by the `same`
flag; the result reports the final state of both arguments and the error
flag.  Reports out of memory, leaving both vectors unmodified, only when
growth is needed and the reallocation fails. -/
def axv_concat (v1 v2 : axvector) (same : Bool) (oom : Bool) :
    axvector × axvector × Bool :=
  if oom = true ∧ v1.cap < v1.items.length + v2.items.length then (v1, v2, true)
  else
    let w : axvector :=
      { v1 with
          items := v1.items ++ v2.items
          cap := max v1.cap (v1.items.length + v2.items.length) }
    (w, if same then w else v2, false)

/-- Modelled from the spec: `axv_extend` (implementation not in `src/`):
move all items of the second vector to the tail of the first, leaving the
second empty; nothing is done when both arguments are the same vector
(aliasing is made explicit by the `same` flag).  Reports out of memory,
leaving both vectors unmodified, only when growth is needed and the
reallocation fails. -/
def axv_extend (v1 v2 : axvector) (same : Bool) (oom : Bool) :
    axvector × axvector × Bool :=
  if same then (v1, v2, false)
  else if oom = true ∧ v1.cap < v1.items.length + v2.items.length then (v1, v2, true)
  else
    ({ v1 with
        items := v1.items ++ v2.items
        cap := max v1.cap (v1.items.length + v2.items.length) },
     { v2 with items := [] }, false)

/-- Modelled from the spec: `axv_filterSplit` (implementation not in
`src/`): keep the items satisfying the predicate, compacted in their
original relative order; the rejected items are moved — not destroyed —
into a newly allocated vector in their original relative order (created
like a fresh vector: comparator and context copied, no destructor,
refcount 1).  When allocating that vector fails the operation returns the
absence indicator and the source vector is completely unmodified.  The
third component records destructor invocations: always empty, because
rejected items are moved, never destroyed. -/
def axv_filterSplit (v : axvector) (f : Item → Bool) (oom : Bool) :
    axvector × Option axvector × List Item :=
  if oom then (v, none, [])
  else
    let rejected := v.items.filter (fun x => !f x)
    ({ v with items := v.items.filter f },
     some { items := rejected
            cap := max 1 rejected.length
            comparator := v.comparator
            hasDestructor := false
            context := v.context
            refcount := 1 },
     [])

/-- A successfully resolved index is always strictly below the length. -/
theorem resolveIndex_lt {index : Int} {len a : Nat}
    (h : resolveIndex index len = some a) : a < len := by
  unfold resolveIndex at h
  by_cases hc : 0 ≤ (if index < 0 then index + len else index)
      ∧ (if index < 0 then index + len else index) < len
  · simp only [hc, if_pos, and_self, if_true, Option.some.injEq] at h
    omega
  · simp [hc] at h

/-- C1: whenever a destructor is installed and the target capacity `s` is
below the current length, `resize` invokes the destructor on exactly the
truncated items (indices `[s, length)`, in order) whether or not the
reallocation fails, and the failing reallocation is reported as out of
memory. -/
theorem resize_shrink_destroys_unconditionally (v : axvector) (s : Nat)
    (hd : v.hasDestructor = true) (_hs : s < v.items.length) :
    (axv_resize v s true).destroyed = v.items.drop s
    ∧ (axv_resize v s false).destroyed = v.items.drop s
    ∧ (axv_resize v s true).err = true
    ∧ (axv_resize v s false).err = false := by
  refine ⟨?_, ?_, rfl, rfl⟩ <;> simp [axv_resize, hd]

/-- Witness for C1 on the concrete vector `[1, 2, 3]` shrunk to capacity 1:
items `2` and `3` are destroyed in order in both the failing and the
succeeding reallocation scenario. -/
theorem resize_shrink_destroys_unconditionally_w :
    ((mkVec [1, 2, 3]).hasDestructor = true ∧ 1 < (mkVec [1, 2, 3]).items.length)
    ∧ ((axv_resize (mkVec [1, 2, 3]) 1 true).destroyed = (mkVec [1, 2, 3]).items.drop 1
       ∧ (axv_resize (mkVec [1, 2, 3]) 1 false).destroyed = (mkVec [1, 2, 3]).items.drop 1
       ∧ (axv_resize (mkVec [1, 2, 3]) 1 true).err = true
       ∧ (axv_resize (mkVec [1, 2, 3]) 1 false).err = false) :=
  ⟨⟨rfl, by decide⟩,
   resize_shrink_destroys_unconditionally (mkVec [1, 2, 3]) 1 rfl (by decide)⟩

/-- C10: `destroyItem` invokes the destructor on the argument exactly once
when one is installed, does nothing when none is, and in either case
returns the vector itself with every field untouched. -/
theorem destroyItem_invokes_once_and_frames (v : axvector) (val : Item) :
    (v.hasDestructor = true → (axv_destroyItem v val).2 = [val])
    ∧ (v.hasDestructor = false → (axv_destroyItem v val).2 = [])
    ∧ (axv_destroyItem v val).1 = v := by
  refine ⟨fun h => ?_, fun h => ?_, rfl⟩ <;> simp [axv_destroyItem, h]

/-- Witness for C10 on the concrete vector `[5]` (destructor installed) and
the value `7`. -/
theorem destroyItem_invokes_once_and_frames_w :
    (axv_destroyItem (mkVec [5]) 7).2 = [7]
    ∧ (axv_destroyItem (mkVec [5]) 7).1 = mkVec [5] :=
  ⟨(destroyItem_invokes_once_and_frames (mkVec [5]) 7).1 rfl,
   (destroyItem_invokes_once_and_frames (mkVec [5]) 7).2.2⟩

/-- C8: on an empty vector, `pop`, `top`, `max` and `min` all return the
absence indicator, and `pop` leaves the vector unchanged. -/
theorem empty_queries_report_absence (v : axvector) (h : v.items = []) :
    axv_pop v = (v, none)
    ∧ axv_top v = none
    ∧ axv_max v = none
    ∧ axv_min v = none := by
  refine ⟨?_, ?_, ?_, ?_⟩ <;> simp [axv_pop, axv_top, axv_max, axv_min, h]

/-- Witness for C8 on the concrete empty vector. -/
theorem empty_queries_report_absence_w :
    (mkVec []).items = []
    ∧ (axv_pop (mkVec []) = (mkVec [], none)
       ∧ axv_top (mkVec []) = none
       ∧ axv_max (mkVec []) = none
       ∧ axv_min (mkVec []) = none) :=
  ⟨rfl, empty_queries_report_absence (mkVec []) rfl⟩

/-- C2: for an in-range anchor and negative `n`, `shift` destroys exactly
`min(|n|, length − anchor)` items starting at the anchor (the destructor,
when installed, is invoked on each in forward order), closes the gap by
shifting the subsequent items left so that the survivors keep their
relative order, decreases the length by the clamped count, and never
reports an error. -/
theorem shift_negative_destroys_and_closes (v : axvector) (index n : Int)
    (a : Nat) (oom : Bool)
    (ha : resolveIndex index v.items.length = some a) (hn : n < 0) :
    (axv_shift v index n oom).vec.items
      = v.items.take a ++ v.items.drop (a + min (-n).toNat (v.items.length - a))
    ∧ (axv_shift v index n oom).vec.items.length
      = v.items.length - min (-n).toNat (v.items.length - a)
    ∧ (axv_shift v index n oom).destroyed
      = (if v.hasDestructor then
          (v.items.drop a).take (min (-n).toNat (v.items.length - a)) else [])
    ∧ (axv_shift v index n oom).vec.items.Sublist v.items
    ∧ (axv_shift v index n oom).err = false := by
  have hlt : a < v.items.length := resolveIndex_lt ha
  have hnot : ¬ 0 < n := by omega
  have hvec : (axv_shift v index n oom).vec.items
      = v.items.take a ++ v.items.drop (a + min (-n).toNat (v.items.length - a)) := by
    simp [axv_shift, ha, hnot]
  refine ⟨hvec, ?_, ?_, ?_, ?_⟩
  · rw [hvec]
    simp only [List.length_append, List.length_take, List.length_drop]
    omega
  · simp [axv_shift, ha, hnot]
  · rw [hvec]
    have hsub : (v.items.take a ++ v.items.drop
        (a + min (-n).toNat (v.items.length - a))).Sublist
        (v.items.take a ++ v.items.drop a) := by
      refine List.Sublist.append_left ?_ _
      have hdd := List.drop_sublist (min (-n).toNat (v.items.length - a)) (v.items.drop a)
      rw [List.drop_drop] at hdd
      exact hdd
    simpa [List.take_append_drop] using hsub
  · simp [axv_shift, ha, hnot]

/-- Witness for C2: on `[10, 20, 30]`, `shift(1, -1)` destroys exactly the
item `20` and leaves `[10, 30]`, with length 2 and no error. -/
theorem shift_negative_destroys_and_closes_w :
    (resolveIndex 1 (mkVec [10, 20, 30]).items.length = some 1 ∧ (-1 : Int) < 0)
    ∧ ((axv_shift (mkVec [10, 20, 30]) 1 (-1) false).vec.items
        = (mkVec [10, 20, 30]).items.take 1
          ++ (mkVec [10, 20, 30]).items.drop
              (1 + min (-(-1) : Int).toNat ((mkVec [10, 20, 30]).items.length - 1))
       ∧ (axv_shift (mkVec [10, 20, 30]) 1 (-1) false).vec.items.length
        = (mkVec [10, 20, 30]).items.length
          - min (-(-1) : Int).toNat ((mkVec [10, 20, 30]).items.length - 1)
       ∧ (axv_shift (mkVec [10, 20, 30]) 1 (-1) false).destroyed
        = (if (mkVec [10, 20, 30]).hasDestructor then
            ((mkVec [10, 20, 30]).items.drop 1).take
              (min (-(-1) : Int).toNat ((mkVec [10, 20, 30]).items.length - 1)) else [])
       ∧ (axv_shift (mkVec [10, 20, 30]) 1 (-1) false).vec.items.Sublist
          (mkVec [10, 20, 30]).items
       ∧ (axv_shift (mkVec [10, 20, 30]) 1 (-1) false).err = false) :=
  ⟨⟨by decide, by decide⟩,
   shift_negative_destroys_and_closes (mkVec [10, 20, 30]) 1 (-1) 1 false
     (by decide) (by decide)⟩

/-- C3: for an in-range anchor, a successful growing `shift` (`n > 0`)
yields exactly the original prefix before the anchor, `n` zero-filled gap
slots, and the unchanged suffix from the anchor on, with the length
increased by `n` and no destructor invocation; and whenever `shift`
reports out of memory the request was a growth (`n > 0`) and the vector
is left unmodified. -/
theorem shift_positive_opens_gap_or_unmodified (v : axvector) (index n : Int)
    (a : Nat) (oom : Bool)
    (ha : resolveIndex index v.items.length = some a) :
    (0 < n → (axv_shift v index n oom).err = false →
       (axv_shift v index n oom).vec.items
         = v.items.take a ++ List.replicate n.toNat 0 ++ v.items.drop a
       ∧ (axv_shift v index n oom).vec.items.length = v.items.length + n.toNat
       ∧ (axv_shift v index n oom).destroyed = [])
    ∧ ((axv_shift v index n oom).err = true →
       0 < n ∧ (axv_shift v index n oom).vec = v) := by
  have hlt : a < v.items.length := resolveIndex_lt ha
  constructor
  · intro hn herr
    by_cases hc : oom = true ∧ v.cap < v.items.length + n.toNat
    · exfalso
      simp [axv_shift, ha, hn, hc] at herr
    · have hvec : (axv_shift v index n oom).vec.items
          = v.items.take a ++ List.replicate n.toNat 0 ++ v.items.drop a := by
        simp [axv_shift, ha, hn, hc]
      refine ⟨hvec, ?_, ?_⟩
      · rw [hvec]
        simp only [List.length_append, List.length_take,
          List.length_replicate, List.length_drop]
        omega
      · simp [axv_shift, ha, hn, hc]
  · intro herr
    by_cases hn : 0 < n
    · by_cases hc : oom = true ∧ v.cap < v.items.length + n.toNat
      · exact ⟨hn, by simp [axv_shift, ha, hn, hc]⟩
      · exfalso
        simp [axv_shift, ha, hn, hc] at herr
    · exfalso
      simp [axv_shift, ha, hn] at herr

/-- Witness for C3: on `[10, 20, 30]`, `shift(1, 2)` succeeds and yields
`[10, 0, 0, 20, 30]` (length 5, two zero-filled slots at the anchor). -/
theorem shift_positive_opens_gap_or_unmodified_w :
    resolveIndex 1 (mkVec [10, 20, 30]).items.length = some 1
    ∧ (((0 : Int) < 2 → (axv_shift (mkVec [10, 20, 30]) 1 2 false).err = false →
         (axv_shift (mkVec [10, 20, 30]) 1 2 false).vec.items
           = (mkVec [10, 20, 30]).items.take 1
             ++ List.replicate (2 : Int).toNat 0 ++ (mkVec [10, 20, 30]).items.drop 1
         ∧ (axv_shift (mkVec [10, 20, 30]) 1 2 false).vec.items.length
           = (mkVec [10, 20, 30]).items.length + (2 : Int).toNat
         ∧ (axv_shift (mkVec [10, 20, 30]) 1 2 false).destroyed = [])
       ∧ ((axv_shift (mkVec [10, 20, 30]) 1 2 false).err = true →
         (0 : Int) < 2 ∧ (axv_shift (mkVec [10, 20, 30]) 1 2 false).vec
           = mkVec [10, 20, 30])) :=
  ⟨by decide,
   shift_positive_opens_gap_or_unmodified (mkVec [10, 20, 30]) 1 2 1 false (by decide)⟩

/-- C4: a successful `concat(v1, v2)` appends copies of all of `v2`'s items
to the tail of `v1` in order, growing the length by `length(v2)`, and
leaves `v2` unmodified; self-concatenation (aliased arguments) duplicates
the original sequence exactly once, giving length `2 × original`. -/
theorem concat_copies_and_self_duplicates_once (v1 v2 : axvector) (oom : Bool) :
    ((axv_concat v1 v2 false oom).2.2 = false →
       (axv_concat v1 v2 false oom).1.items = v1.items ++ v2.items
       ∧ (axv_concat v1 v2 false oom).1.items.length
           = v1.items.length + v2.items.length
       ∧ (axv_concat v1 v2 false oom).2.1 = v2)
    ∧ ((axv_concat v1 v1 true oom).2.2 = false →
       (axv_concat v1 v1 true oom).1.items = v1.items ++ v1.items
       ∧ (axv_concat v1 v1 true oom).1.items.length = 2 * v1.items.length) := by
  constructor
  · intro herr
    by_cases hc : oom = true ∧ v1.cap < v1.items.length + v2.items.length
    · exfalso
      simp [axv_concat, hc] at herr
    · refine ⟨?_, ?_, ?_⟩ <;> simp [axv_concat, hc]
  · intro herr
    by_cases hc : oom = true ∧ v1.cap < v1.items.length + v1.items.length
    · exfalso
      simp [axv_concat, hc] at herr
    · refine ⟨?_, ?_⟩ <;> simp [axv_concat, hc]
      omega

/-- Witness for C4 on `v1 = [1, 2]`, `v2 = [3, 4]` (and the self-concat of
`[1, 2]`), with a succeeding reallocation. -/
theorem concat_copies_and_self_duplicates_once_w :
    (axv_concat (mkVec [1, 2]) (mkVec [3, 4]) false false).2.2 = false
    ∧ (axv_concat (mkVec [1, 2]) (mkVec [3, 4]) false false).1.items
        = (mkVec [1, 2]).items ++ (mkVec [3, 4]).items
    ∧ (axv_concat (mkVec [1, 2]) (mkVec [3, 4]) false false).2.1 = mkVec [3, 4]
    ∧ (axv_concat (mkVec [1, 2]) (mkVec [1, 2]) true false).1.items
        = (mkVec [1, 2]).items ++ (mkVec [1, 2]).items
    ∧ (axv_concat (mkVec [1, 2]) (mkVec [1, 2]) true false).1.items.length
        = 2 * (mkVec [1, 2]).items.length :=
  ⟨rfl,
   ((concat_copies_and_self_duplicates_once (mkVec [1, 2]) (mkVec [3, 4]) false).1 rfl).1,
   ((concat_copies_and_self_duplicates_once (mkVec [1, 2]) (mkVec [3, 4]) false).1 rfl).2.2,
   ((concat_copies_and_self_duplicates_once (mkVec [1, 2]) (mkVec [1, 2]) false).2 rfl).1,
   ((concat_copies_and_self_duplicates_once (mkVec [1, 2]) (mkVec [1, 2]) false).2 rfl).2⟩

/-- C5: a successful `extend(v1, v2)` on distinct vectors moves all items
of `v2` to the tail of `v1` preserving both relative orders, leaving `v2`
empty and `v1` with length `len1 + len2`; on aliased arguments nothing is
done; on out of memory the failure is reported and both vectors are left
unmodified. -/
theorem extend_moves_all_items (v1 v2 : axvector) (oom : Bool) :
    ((axv_extend v1 v2 false oom).2.2 = false →
       (axv_extend v1 v2 false oom).1.items = v1.items ++ v2.items
       ∧ (axv_extend v1 v2 false oom).2.1.items = []
       ∧ (axv_extend v1 v2 false oom).1.items.length
           = v1.items.length + v2.items.length)
    ∧ axv_extend v1 v2 true oom = (v1, v2, false)
    ∧ ((axv_extend v1 v2 false oom).2.2 = true →
       (axv_extend v1 v2 false oom).1 = v1
       ∧ (axv_extend v1 v2 false oom).2.1 = v2) := by
  refine ⟨?_, by simp [axv_extend], ?_⟩
  · intro herr
    by_cases hc : oom = true ∧ v1.cap < v1.items.length + v2.items.length
    · exfalso
      simp [axv_extend, hc] at herr
    · refine ⟨?_, ?_, ?_⟩ <;> simp [axv_extend, hc]
  · intro herr
    by_cases hc : oom = true ∧ v1.cap < v1.items.length + v2.items.length
    · constructor <;> simp [axv_extend, hc]
    · exfalso
      simp [axv_extend, hc] at herr

/-- Witness for C5 on `v1 = [1, 2]`, `v2 = [3, 4]`: after a successful
extend, `v1 = [1, 2, 3, 4]` and `v2 = []`; the aliased call is a no-op. -/
theorem extend_moves_all_items_w :
    (axv_extend (mkVec [1, 2]) (mkVec [3, 4]) false false).2.2 = false
    ∧ (axv_extend (mkVec [1, 2]) (mkVec [3, 4]) false false).1.items
        = (mkVec [1, 2]).items ++ (mkVec [3, 4]).items
    ∧ (axv_extend (mkVec [1, 2]) (mkVec [3, 4]) false false).2.1.items = []
    ∧ (axv_extend (mkVec [1, 2]) (mkVec [3, 4]) false false).1.items.length
        = (mkVec [1, 2]).items.length + (mkVec [3, 4]).items.length
    ∧ axv_extend (mkVec [1, 2]) (mkVec [3, 4]) true false
        = (mkVec [1, 2], mkVec [3, 4], false) :=
  ⟨rfl,
   ((extend_moves_all_items (mkVec [1, 2]) (mkVec [3, 4]) false).1 rfl).1,
   ((extend_moves_all_items (mkVec [1, 2]) (mkVec [3, 4]) false).1 rfl).2.1,
   ((extend_moves_all_items (mkVec [1, 2]) (mkVec [3, 4]) false).1 rfl).2.2,
   (extend_moves_all_items (mkVec [1, 2]) (mkVec [3, 4]) false).2.1⟩

/-- C6: a successful `filterSplit` keeps in the source exactly the items
satisfying the predicate in their original relative order, moves — never
destroys — the rejected items into the returned vector in their original
relative order, and the multiset union of both equals the original
multiset of items; a failed allocation returns the absence indicator and
leaves the source completely unmodified. -/
theorem filterSplit_partitions_multiset (v : axvector) (f : Item → Bool) :
    ((axv_filterSplit v f false).1.items : Multiset Item)
        + (((axv_filterSplit v f false).2.1.getD (mkVec [])).items : Multiset Item)
      = (v.items : Multiset Item)
    ∧ (axv_filterSplit v f false).1.items.Sublist v.items
    ∧ ((axv_filterSplit v f false).2.1.getD (mkVec [])).items.Sublist v.items
    ∧ (axv_filterSplit v f false).2.1.isSome = true
    ∧ (axv_filterSplit v f false).2.2 = []
    ∧ axv_filterSplit v f true = (v, none, []) := by
  refine ⟨?_, ?_, ?_, rfl, rfl, rfl⟩
  · have hperm := List.filter_append_perm f v.items
    have hcoe : ((v.items.filter f : List Item) : Multiset Item)
        + ((v.items.filter (fun x => !f x) : List Item) : Multiset Item)
        = (v.items : Multiset Item) := by
      rw [Multiset.coe_add]
      exact Multiset.coe_eq_coe.mpr hperm
    simpa [axv_filterSplit] using hcoe
  · simp only [axv_filterSplit, if_neg Bool.false_ne_true]
    exact List.filter_sublist v.items
  · simp only [axv_filterSplit, if_neg Bool.false_ne_true]
    exact List.filter_sublist v.items

/-- C7: a negative index is normalized by adding the length, so `at(v, i)`
with `−length ≤ i < 0` agrees with `at(v, length + i)`; an index whose
normalized value falls outside `[0, length)` makes `at` return the
absence indicator and makes `set` and `swap` report out-of-range while
leaving the vector unmodified. -/
theorem index_normalization_and_range (v : axvector) (i : Int) (val : Item) :
    (-(v.items.length : Int) ≤ i → i < 0 →
        axv_at v i = axv_at v ((v.items.length : Int) + i))
    ∧ (resolveIndex i v.items.length = none →
        axv_at v i = none
        ∧ axv_set v i val = (v, true)
        ∧ axv_swap v i i = (v, true)) := by
  constructor
  · intro h1 h2
    have hres : resolveIndex i v.items.length
        = resolveIndex ((v.items.length : Int) + i) v.items.length := by
      simp only [resolveIndex]
      rw [if_pos h2, if_neg (show ¬((v.items.length : Int) + i < 0) by omega),
        Int.add_comm i]
    unfold axv_at
    rw [hres]
  · intro hnone
    refine ⟨?_, ?_, ?_⟩
    · unfold axv_at
      rw [hnone]
    · unfold axv_set
      rw [hnone]
    · unfold axv_swap
      rw [hnone]

/-- Witness for C7 on `[10, 20, 30]`: `at(-1)` equals `at(3 + (-1))`, and
the out-of-range index 5 yields the absence indicator from `at` and an
out-of-range report from `set` and `swap` with the vector unmodified. -/
theorem index_normalization_and_range_w :
    (axv_at (mkVec [10, 20, 30]) (-1)
        = axv_at (mkVec [10, 20, 30]) (((mkVec [10, 20, 30]).items.length : Int) + (-1)))
    ∧ (axv_at (mkVec [10, 20, 30]) 5 = none
       ∧ axv_set (mkVec [10, 20, 30]) 5 9 = (mkVec [10, 20, 30], true)
       ∧ axv_swap (mkVec [10, 20, 30]) 5 5 = (mkVec [10, 20, 30], true)) :=
  ⟨(index_normalization_and_range (mkVec [10, 20, 30]) (-1) 9).1 (by decide) (by decide),
   (index_normalization_and_range (mkVec [10, 20, 30]) 5 9).2 (by decide)⟩

/-- Two successive left rotations whose amounts are the complements of
`r1` and `r2` with respect to the length cancel whenever `r1 + r2` is a
multiple of the length. -/
theorem rotate_cancel_aux (l : List Item) (r1 r2 : Nat)
    (h1 : r1 < l.length) (h2 : r2 < l.length)
    (hd : l.length ∣ r1 + r2) :
    (l.rotate (l.length - r1)).rotate (l.length - r2) = l := by
  rw [List.rotate_rotate]
  obtain ⟨c, hc⟩ := hd
  match c, hc with
  | 0, hc =>
    have hr : l.length - r1 + (l.length - r2) = l.length + l.length := by omega
    rw [hr, ← List.rotate_rotate, List.rotate_length, List.rotate_length]
  | 1, hc =>
    have hr : l.length - r1 + (l.length - r2) = l.length := by omega
    rw [hr, List.rotate_length]
  | (c + 2), hc =>
    exfalso
    have hmul : l.length * 2 ≤ l.length * (c + 2) :=
      Nat.mul_le_mul_left _ (by omega)
    omega

/-- C9: rotating by the current length leaves the vector unchanged, and a
rotation by any integer `k` followed by a rotation by `−k` restores the
original vector. -/
theorem rotate_length_identity_and_inverse (v : axvector) (k : Int) :
    axv_rotate v (v.items.length : Int) = v
    ∧ axv_rotate (axv_rotate v k) (-k) = v := by
  obtain ⟨it, cp, cmp, hd, cx, rc⟩ := v
  constructor
  · by_cases h : it.length = 0
    · simp [axv_rotate, h]
    · have hmod : (((it.length : Int)) % ((it.length : Int))).toNat = 0 := by
        simp [Int.emod_self]
      simp [axv_rotate, h, hmod, List.rotate_length]
  · by_cases h : it.length = 0
    · simp [axv_rotate, h]
    · have hL : 0 < it.length := Nat.pos_of_ne_zero h
      have hLi : (0 : Int) < (it.length : Int) := by exact_mod_cast hL
      have h1 : 0 ≤ k % (it.length : Int) := Int.emod_nonneg k (by omega)
      have h2 : k % (it.length : Int) < it.length := Int.emod_lt_of_pos k hLi
      have h3 : 0 ≤ (-k) % (it.length : Int) := Int.emod_nonneg (-k) (by omega)
      have h4 : (-k) % (it.length : Int) < it.length := Int.emod_lt_of_pos (-k) hLi
      have hr1L : (k % (it.length : Int)).toNat < it.length := by omega
      have hr2L : ((-k) % (it.length : Int)).toNat < it.length := by omega
      have hdvd : it.length ∣ (k % (it.length : Int)).toNat
          + ((-k) % (it.length : Int)).toNat := by
        have hz : (k % (it.length : Int) + (-k) % (it.length : Int))
            % (it.length : Int) = 0 := by
          rw [← Int.add_emod]
          simp
        have hdz : (it.length : Int) ∣ (k % (it.length : Int) + (-k) % (it.length : Int)) :=
          Int.dvd_of_emod_eq_zero hz
        have hcast : ((((k % (it.length : Int)).toNat
            + ((-k) % (it.length : Int)).toNat : Nat)) : Int)
            = k % (it.length : Int) + (-k) % (it.length : Int) := by
          push_cast
          omega
        rw [← Int.natCast_dvd_natCast, hcast]
        exact hdz
      have hkey : ((it.rotate (it.length - (k % (it.length : Int)).toNat)).rotate
          (it.length - ((-k) % (it.length : Int)).toNat)) = it :=
        rotate_cancel_aux it _ _ hr1L hr2L hdvd
      simp [axv_rotate, h, List.length_rotate, hkey]
